import Mathlib

/-!
Verification of the Mission Clawtrol voice sidecar (`services/voice/main.py`).

The development embeds, in order:
* the base64 codec used for audio payloads (`base64.b64encode` / `b64decode`
  restricted to well-formed inputs, which is all the service ever produces);
* the gateway exchange `ask_jarvis` (lines 167-258 of the source): the
  proxy-ready handshake, the event-listening loop with its 90-second
  deadline, delta accumulation, and the terminal `final`/`aborted`/`error`
  states;
* the per-connection session state machine of the WebSocket handler
  `voice_ws` (lines 302-491): frame dispatch for `ping`/`config`/`cancel`/
  `audio`, the `processing` guard, and the audio-turn pipeline
  (STT, agent wait with delta streaming, TTS, 32 KiB chunk delivery).

External adapters (`transcribe_bytes`, `synthesize_wav_bytes`) and the
gateway frame stream are supplied by an `Env` record, mirroring the narrow
interfaces the source uses: bytes-in/text-out, text-in/bytes-out, and a
stream of timed gateway frames.  Python exceptions raised by an adapter are
modelled as `Except.error` carrying the exception text.

One modelling note on concurrency: the handler coroutine in the source is
the only reader of both the client socket and the `cancelled` flag.  While
an audio turn is in flight the coroutine never returns to `ws.receive()`
(the pipeline runs inline in the receive loop), so no write to `cancelled`
can happen between the `cancelled = False` at the start of a turn (line
409) and the end of that turn.  Every mid-turn read of `cancelled`
therefore yields `false` in the program as written.  The pipeline
`runTurn` below is nevertheless parameterized by a schedule `sched :
Nat → Bool` giving the value of the `i`-th read of `cancelled` inside the
turn, so that the checkpoint structure of the code (lines 423, 438, 448,
462, 475) can be analysed; the program's actual semantics is the constant
`noCancel` schedule.
-/

namespace VoiceSidecar

/-! ### Base64 (Python `base64.b64encode` / `b64decode` on well-formed data) -/

/-- The standard base64 alphabet used by Python's `base64` module. -/
def b64Alphabet : List Char :=
  "ABCDEFGHIJKLMNOPQRSTUVWXYZabcdefghijklmnopqrstuvwxyz0123456789+/".data

/-- The character encoding a six-bit group. -/
def b64Char (n : Nat) : Char := b64Alphabet.getD n '='

/-- The six-bit value of an alphabet character (`'='` padding maps to 0,
which is how the padded groups are reconstructed below). -/
def b64Val (c : Char) : Nat := b64Alphabet.indexOf c % 64

/-- Base64 encoding of a byte list, three bytes to four characters with
`'='` padding, exactly as `base64.b64encode`. -/
def b64EncodeGroups : List Nat → List Char
  | a :: b :: c :: rest =>
    let n := a * 65536 + b * 256 + c
    b64Char (n / 262144 % 64) :: b64Char (n / 4096 % 64) ::
      b64Char (n / 64 % 64) :: b64Char (n % 64) :: b64EncodeGroups rest
  | [a, b] =>
    let n := a * 65536 + b * 256
    [b64Char (n / 262144 % 64), b64Char (n / 4096 % 64), b64Char (n / 64 % 64), '=']
  | [a] =>
    let n := a * 65536
    [b64Char (n / 262144 % 64), b64Char (n / 4096 % 64), '=', '=']
  | [] => []

/-- Base64 decoding of four-character groups, the inverse of
`b64EncodeGroups` (i.e. `base64.b64decode` on the well-formed strings the
service produces and consumes; rejection of malformed padding is not
needed by any claim and is not modelled). -/
def b64DecodeGroups : List Char → List Nat
  | c1 :: c2 :: c3 :: c4 :: rest =>
    let n := b64Val c1 * 262144 + b64Val c2 * 4096 + b64Val c3 * 64 + b64Val c4
    if c3 = '=' then [n / 65536 % 256]
    else if c4 = '=' then [n / 65536 % 256, n / 256 % 256]
    else n / 65536 % 256 :: n / 256 % 256 :: n % 256 :: b64DecodeGroups rest
  | _ => []

theorem b64Val_b64Char : ∀ n, n < 64 → b64Val (b64Char n) = n := by decide

theorem b64Char_ne_pad : ∀ n, n < 64 → b64Char n ≠ '=' := by decide

theorem b64Val_pad : b64Val '=' = 0 := by decide

theorem b64_roundtrip :
    ∀ l : List Nat, (∀ b ∈ l, b < 256) → b64DecodeGroups (b64EncodeGroups l) = l
  | a :: b :: c :: rest, h => by
    have ha : a < 256 := h a (by simp)
    have hb : b < 256 := h b (by simp)
    have hc : c < 256 := h c (by simp)
    have ih := b64_roundtrip rest (fun x hx => h x (by simp [hx]))
    simp only [b64EncodeGroups, b64DecodeGroups]
    rw [if_neg (b64Char_ne_pad _ (Nat.mod_lt _ (by norm_num)))]
    rw [if_neg (b64Char_ne_pad _ (Nat.mod_lt _ (by norm_num)))]
    rw [b64Val_b64Char _ (Nat.mod_lt _ (by norm_num)),
        b64Val_b64Char _ (Nat.mod_lt _ (by norm_num)),
        b64Val_b64Char _ (Nat.mod_lt _ (by norm_num)),
        b64Val_b64Char _ (Nat.mod_lt _ (by norm_num))]
    rw [ih]
    simp only [List.cons.injEq, eq_self_iff_true, and_true]
    omega
  | [a, b], h => by
    have ha : a < 256 := h a (by simp)
    have hb : b < 256 := h b (by simp)
    simp only [b64EncodeGroups, b64DecodeGroups]
    rw [if_neg (b64Char_ne_pad _ (Nat.mod_lt _ (by norm_num)))]
    rw [if_pos trivial]
    rw [b64Val_b64Char _ (Nat.mod_lt _ (by norm_num)),
        b64Val_b64Char _ (Nat.mod_lt _ (by norm_num)),
        b64Val_b64Char _ (Nat.mod_lt _ (by norm_num))]
    simp only [b64Val_pad, List.cons.injEq, eq_self_iff_true, and_true]
    omega
  | [a], h => by
    have ha : a < 256 := h a (by simp)
    simp only [b64EncodeGroups, b64DecodeGroups]
    rw [if_pos trivial]
    rw [b64Val_b64Char _ (Nat.mod_lt _ (by norm_num)),
        b64Val_b64Char _ (Nat.mod_lt _ (by norm_num))]
    simp only [b64Val_pad, List.cons.injEq, eq_self_iff_true, and_true]
    omega
  | [], _ => rfl

/-! ### Gateway exchange (`ask_jarvis`, source lines 167-258)

The gateway connection delivers a stream of frames.  Each frame is
modelled after the shape `ask_jarvis` inspects: the JSON-parse failure
case (`except Exception: continue`), the `proxy-ready` and `error` frames
of the handshake phase, chat event frames (`type == "event"`,
`event == "chat"`) carrying a `state` string and a list of content
blocks, and any other frame (ignored).  Frames of the listening phase are
paired with the event-loop time at which they are read, since the code
compares `asyncio.get_event_loop().time()` against the deadline once per
received frame; time is measured from the moment the request is sent, so
the deadline is the `timeout_secs` value itself. -/

/-- One content block of a chat message (`message.content` entries):
either a text block (`{"type": "text", "text": s}`) or any other block,
which the code skips. -/
inductive Block
  | text (s : String)
  | other
deriving DecidableEq, Repr

/-- One raw frame read from the gateway socket, as classified by
`ask_jarvis`. -/
inductive GwRaw
  | invalid
  | proxyReady
  | errFrame (message : String)
  | chat (state : String) (content : List Block)
  | otherFrame
deriving DecidableEq, Repr

/-- Texts of the text blocks of a content list (including empty ones, as
in the `final` branch's comprehension). -/
def blockTexts (content : List Block) : List String :=
  content.filterMap fun b => match b with
    | .text s => some s
    | .other => none

/-- Delta accumulation step (source lines 233-240): every non-empty text
block of a `delta` frame is appended to `response_parts` and published to
the delta queue. -/
def addDeltas (parts : List String) (content : List Block) : List String :=
  parts ++ (blockTexts content).filter fun s => s ≠ ""

/-- Python string truthiness fallback `a or b`. -/
def pyOr (a b : String) : String := if a = "" then b else a

/-- The fallback text of source line 258. -/
def apology : String := "I'm sorry, I didn't get a response."

/-- Handshake phase (source lines 187-200): read frames until
`proxy-ready`; an `error` frame raises, and end-of-stream without
readiness raises. -/
def awaitReady : List (Nat × GwRaw) → Except String (List (Nat × GwRaw))
  | [] => .error "Gateway proxy did not send proxy-ready"
  | (_, raw) :: rest =>
    match raw with
    | .proxyReady => .ok rest
    | .errFrame m => .error ("Gateway proxy error: " ++ m)
    | _ => awaitReady rest

deriving instance DecidableEq for Except

/-- Result of the listening loop: the value of `final_text` on loop exit
(or the exception raised), together with the accumulated
`response_parts`, which is also exactly the list of deltas published to
the `on_delta` queue. -/
structure ListenOut where
  result : Except String String
  parts : List String
deriving DecidableEq, Repr

/-- Listening phase (source lines 217-252): read timed frames until a
terminal chat state, the deadline, or end of stream.  The deadline check
happens once per received frame, before the frame is examined. -/
def listenLoop (deadline : Nat) : List (Nat × GwRaw) → List String → ListenOut
  | [], parts => ⟨.ok "", parts⟩
  | (t, raw) :: rest, parts =>
    if deadline < t then ⟨.ok "", parts⟩
    else
      match raw with
      | .chat st content =>
        if st = "delta" then listenLoop deadline rest (addDeltas parts content)
        else if st = "final" then
          ⟨.ok (pyOr (String.join (blockTexts content)) (String.join parts)), parts⟩
        else if st = "aborted" ∨ st = "error" then
          if String.join parts = "" then ⟨.error ("Chat " ++ st), parts⟩
          else ⟨.ok (String.join parts), parts⟩
        else listenLoop deadline rest parts
      | _ => listenLoop deadline rest parts

/-- The whole gateway exchange (source lines 167-258): handshake, then
listening loop; every exception is wrapped into a single
`RuntimeError("Could not reach Jarvis: …")` by the outer handler, and a
successful exit returns `final_text or "".join(response_parts) or
apology`.  The second component is the list of deltas published to the
caller's queue. -/
def ask_jarvis (frames : List (Nat × GwRaw)) (timeout : Nat) :
    Except String String × List String :=
  match awaitReady frames with
  | .error e => (.error ("Could not reach Jarvis: " ++ e), [])
  | .ok rest =>
    let o := listenLoop timeout rest []
    match o.result with
    | .error e => (.error ("Could not reach Jarvis: " ++ e), o.parts)
    | .ok ft => (.ok (pyOr ft (pyOr (String.join o.parts) apology)), o.parts)

/-! ### Session state machine (`voice_ws`, source lines 302-491) -/

/-- Outbound protocol events (the server→client frames of the handler's
docstring), tagged exactly as the `send({...})` calls tag them. -/
inductive Event
  | ready
  | pong
  | configOk (agentId sttModel sessionKey : String)
  | cancelledAck
  | transcript (text : String)
  | thinking
  | responseText (text : String) (final : Bool)
  | audioChunk (data : String)
  | audioEnd
  | error (message : String)
deriving DecidableEq, Repr

/-- Per-connection mutable state (source lines 327-331). -/
structure SessionState where
  sessionKey : String
  voiceName : Option String
  processing : Bool
  cancelled : Bool
deriving DecidableEq, Repr

/-- Default of `WHISPER_MODEL` (source line 58). -/
def WHISPER_MODEL_SIZE : String := "base"

/-- Default of `VOICE_SESSION_KEY` (source line 60). -/
def DEFAULT_SESSION_KEY : String := "agent:cso:mc-voice"

/-- State of a freshly accepted connection (source lines 327-331). -/
def initState : SessionState :=
  { sessionKey := DEFAULT_SESSION_KEY
    voiceName := none
    processing := false
    cancelled := false }

/-- External collaborators, at the narrow interfaces the handler uses:
`transcribe_bytes` (bytes in, text out, may raise), the gateway frame
stream consumed by `ask_jarvis` for a given (message, session key) pair,
and `synthesize_wav_bytes` (text and optional voice in, WAV bytes out,
may raise).  An `Except.error` carries the `str(exc)` text of the raised
exception. -/
structure Env where
  stt : List Nat → Except String String
  gateway : String → String → List (Nat × GwRaw)
  tts : String → Option String → Except String (List Nat)

/-- The schedule of values returned by the reads of `cancelled` inside one
audio turn.  In the program as written every read returns `false` (see
the header note); `noCancel` is that actual schedule. -/
def noCancel : Nat → Bool := fun _ => false

/-- Outcome of the delta-forwarding loop (source lines 436-446): the
partial `response_text` events sent, the final value of `accumulated`,
whether the loop exited through the cancellation branch (which cancels
the gateway task), and the index of the next `cancelled` read. -/
structure DOut where
  events : List Event
  acc : String
  hit : Bool
  next : Nat
deriving DecidableEq, Repr

/-- Delta-forwarding loop (source lines 436-446): while the gateway task
is running, check `cancelled`, then take the next queued delta, extend
`accumulated` and send a non-final `response_text` carrying the whole
accumulated text.  Each queued delta is consumed once, in order. -/
def deltaLoop (sched : Nat → Bool) (i : Nat) (acc : String) : List String → DOut
  | [] => ⟨[], acc, false, i⟩
  | d :: ds =>
    if sched i then ⟨[], acc, true, i + 1⟩
    else
      let r := deltaLoop sched (i + 1) (acc ++ d) ds
      ⟨Event.responseText (acc ++ d) false :: r.events, r.acc, r.hit, r.next⟩

/-- Slicing helper with an explicit fuel argument (structural recursion so
that concrete runs evaluate in the kernel): when the fuel is at least the
length of the list, `wavChunksF` cuts the list into consecutive
32768-element slices. -/
def wavChunksF : Nat → List Nat → List (List Nat)
  | _, [] => []
  | 0, w :: ws => [w :: ws]
  | f + 1, w :: ws => (w :: ws).take 32768 :: wavChunksF f ((w :: ws).drop 32768)

/-- The consecutive 32768-byte slices of a byte list, in order (the
`range(0, len(wav_bytes), 32768)` slicing of source line 474). -/
def wavChunks (wav : List Nat) : List (List Nat) := wavChunksF wav.length wav

theorem wavChunksF_fuel : ∀ (f₁ : Nat) (l : List Nat) (f₂ : Nat),
    l.length ≤ f₁ → l.length ≤ f₂ → wavChunksF f₁ l = wavChunksF f₂ l := by
  intro f₁
  induction f₁ with
  | zero =>
    intro l f₂ h₁ h₂
    have : l = [] := List.length_eq_zero.mp (Nat.le_zero.mp h₁)
    subst this
    cases f₂ <;> rfl
  | succ g ih =>
    intro l f₂ h₁ h₂
    cases l with
    | nil => cases f₂ <;> rfl
    | cons w ws =>
      cases f₂ with
      | zero => exact absurd h₂ (by simp)
      | succ h =>
        rw [wavChunksF, wavChunksF]
        have hlen : ((w :: ws).drop 32768).length ≤ g := by
          simp only [List.length_drop, List.length_cons] at h₁ ⊢
          omega
        have hlen2 : ((w :: ws).drop 32768).length ≤ h := by
          simp only [List.length_drop, List.length_cons] at h₂ ⊢
          omega
        rw [ih _ _ hlen hlen2]

/-- Unfolding of `wavChunks` on a non-empty list. -/
theorem wavChunks_cons (w : Nat) (ws : List Nat) :
    wavChunks (w :: ws) = (w :: ws).take 32768 :: wavChunks ((w :: ws).drop 32768) := by
  show wavChunksF (ws.length + 1) (w :: ws) = _
  rw [wavChunksF]
  rw [wavChunksF_fuel ws.length ((w :: ws).drop 32768) ((w :: ws).drop 32768).length
    (by simp only [List.length_drop, List.length_cons]; omega) (Nat.le_refl _)]
  rfl

/-- Chunk-delivery loop over the computed slices (source lines 472-478):
before each slice check `cancelled`; on cancellation stop, otherwise send
the slice base64-encoded as an `audio_chunk` event. -/
def chunkEmit (sched : Nat → Bool) (i : Nat) : List (List Nat) → List Event
  | [] => []
  | c :: cs =>
    if sched i then []
    else Event.audioChunk (String.mk (b64EncodeGroups c)) :: chunkEmit sched (i + 1) cs

/-- The chunk-delivery loop of source lines 472-478 on the raw WAV bytes. -/
def chunkLoop (sched : Nat → Bool) (i : Nat) (wav : List Nat) : List Event :=
  chunkEmit sched i (wavChunks wav)

/-- Turn tail after the `thinking` event (source lines 430-480): forward
deltas, checkpoint, await the gateway result, emit the final
`response_text` (falling back to the accumulated text when the result is
empty), checkpoint, synthesize, deliver chunks, emit `audio_end`.  A
pipeline exception becomes a single `error` event (lines 482-484). -/
def turnTail (sched : Nat → Bool) (res : Except String String)
    (deltas : List String) (tts : String → Except String (List Nat)) : List Event :=
  let r := deltaLoop sched 1 "" deltas
  r.events ++
    (if r.hit then []
     else if sched r.next then []
     else
       match res with
       | .error e => [Event.error e]
       | .ok fr =>
         let fr2 := if fr = "" then r.acc else fr
         Event.responseText fr2 true ::
           (if sched (r.next + 1) then []
            else
              match tts fr2 with
              | .error e => [Event.error e]
              | .ok wav => chunkLoop sched (r.next + 2) wav ++ [Event.audioEnd]))

/-- One accepted audio turn (source lines 411-486), as the list of events
it emits.  Read 0 of `cancelled` is the checkpoint after the transcript
event (line 423); reads 1… are those of the delta loop, then the
checkpoints of lines 448 and 462, then one read per chunk slice
(line 475). -/
def runTurn (env : Env) (sKey : String) (vName : Option String)
    (audioBytes : List Nat) (sched : Nat → Bool) : List Event :=
  match env.stt audioBytes with
  | .error e => [Event.error e]
  | .ok t =>
    if t = "" then [Event.error "No speech detected"]
    else
      Event.transcript t ::
        (if sched 0 then []
         else
           Event.thinking ::
             turnTail sched (ask_jarvis (env.gateway t sKey) 90).1
               (ask_jarvis (env.gateway t sKey) 90).2 (fun x => env.tts x vName))

/-- The JSON payloads the dispatcher inspects: an object is reduced to the
fields the handler reads (`type` with default `""`, `agentId`,
`sttModel`, `voiceModel`, `data`); any JSON value that is not an object
makes `msg.get` raise `AttributeError`. -/
inductive JsonVal
  | obj (typeTag : String) (agentId sttModel voiceModel data : Option String)
  | nonObject
deriving DecidableEq, Repr

/-- One inbound WebSocket frame, as classified by source lines 350-360:
a disconnect message, a frame with no (or empty) text payload, a text
payload that is not valid JSON, or a parsed JSON payload. -/
inductive Frame
  | disconnect
  | emptyText
  | badJson
  | json (v : JsonVal)
deriving DecidableEq, Repr

/-- Result of dispatching one frame: either the session continues with a
new state, or the receive loop ends (client disconnect, or an uncaught
exception reaching the handlers of lines 488-491). -/
inductive StepResult
  | next (s : SessionState) (events : List Event)
  | halt (events : List Event)
deriving DecidableEq, Repr

/-- Dispatch of one inbound frame (source lines 350-486).  The audio turn
runs inline with the actual `noCancel` schedule: the handler coroutine
does not return to `ws.receive()` until the turn is over, so no `cancel`
frame can be dispatched while a turn is in flight.  Decoding of inbound
base64 audio uses `b64DecodeGroups`; the `binascii` failure on malformed
padding is not modelled (no claim touches malformed inbound base64). -/
def step (env : Env) (s : SessionState) : Frame → StepResult
  | .disconnect => .halt []
  | .emptyText => .next s []
  | .badJson => .next s []
  | .json .nonObject => .halt []
  | .json (.obj typeTag agentId sttModel voiceModel data) =>
    if typeTag = "ping" then .next s [.pong]
    else if typeTag = "config" then
      let aid := agentId.getD "cso"
      let stt := sttModel.getD WHISPER_MODEL_SIZE
      let sk := "agent:" ++ aid ++ ":mc-voice"
      let vn := match voiceModel with
        | some v => if v = "" then s.voiceName else some v
        | none => s.voiceName
      .next { s with sessionKey := sk, voiceName := vn } [.configOk aid stt sk]
    else if typeTag = "cancel" then
      .next { s with cancelled := true, processing := false } [.cancelledAck]
    else if typeTag = "audio" then
      if s.processing then .next s [.error "Already processing — please wait"]
      else
        let b64 := data.getD ""
        if b64 = "" then .next s [.error "No audio data"]
        else
          let audioBytes := b64DecodeGroups b64.data
          if audioBytes.length < 500 then .next s [.error "Audio too short"]
          else
            .next { s with processing := false, cancelled := false }
              (runTurn env s.sessionKey s.voiceName audioBytes noCancel)
    else .next s []

/-- The receive loop (source lines 343-491) as a fold over the inbound
frames, collecting the emitted events.  The resulting state is `none`
when the loop ended before all frames were consumed. -/
def runFrames (env : Env) (s : SessionState) : List Frame → Option SessionState × List Event
  | [] => (some s, [])
  | f :: rest =>
    match step env s f with
    | .halt evs => (none, evs)
    | .next s' evs =>
      let r := runFrames env s' rest
      (r.1, evs ++ r.2)

/-! ### Derived descriptions of the loops, and supporting lemmas -/

/-- The successive values of `accumulated` while the deltas `ds` are
folded onto the initial value `acc`: the text carried by each partial
`response_text` event. -/
def accTexts (acc : String) : List String → List String
  | [] => []
  | d :: ds => (acc ++ d) :: accTexts (acc ++ d) ds

/-- The final value of `accumulated` after all deltas. -/
def accFinal (acc : String) : List String → String
  | [] => acc
  | d :: ds => accFinal (acc ++ d) ds

/-- The partial `response_text` events produced by forwarding the deltas
`ds` starting from accumulated text `acc`. -/
def deltaEvents (acc : String) (ds : List String) : List Event :=
  (accTexts acc ds).map fun t => Event.responseText t false

/-- Selector for partial (non-final) `response_text` events. -/
def partialText : Event → Option String
  | .responseText t false => some t
  | _ => none

/-- Selector for `audio_chunk` payloads. -/
def chunkData : Event → Option String
  | .audioChunk d => some d
  | _ => none

/-- `a` is an initial segment of `b`. -/
def strPre (a b : String) : Prop := ∃ s, b = a ++ s

theorem deltaLoop_noCancel (ds : List String) : ∀ i acc,
    deltaLoop noCancel i acc ds = ⟨deltaEvents acc ds, accFinal acc ds, false, i + ds.length⟩ := by
  induction ds with
  | nil => intro i acc; simp [deltaLoop, deltaEvents, accTexts, accFinal]
  | cons d ds ih =>
    intro i acc
    simp only [deltaLoop, noCancel, Bool.false_eq_true, if_false, ih, deltaEvents, accTexts,
      accFinal, List.map_cons, List.length_cons, DOut.mk.injEq]
    exact ⟨trivial, trivial, trivial, by omega⟩

theorem chunkEmit_noCancel (cs : List (List Nat)) : ∀ i,
    chunkEmit noCancel i cs = cs.map fun c => Event.audioChunk (String.mk (b64EncodeGroups c)) := by
  induction cs with
  | nil => intro i; rfl
  | cons c cs ih =>
    intro i
    simp only [chunkEmit, noCancel, Bool.false_eq_true, if_false, List.map_cons, ih]

theorem chunkLoop_noCancel (wav : List Nat) (i : Nat) :
    chunkLoop noCancel i wav =
      (wavChunks wav).map fun c => Event.audioChunk (String.mk (b64EncodeGroups c)) :=
  chunkEmit_noCancel (wavChunks wav) i

theorem wavChunks_flat : ∀ wav : List Nat, (wavChunks wav).flatten = wav
  | [] => rfl
  | w :: ws => by
    rw [wavChunks_cons]
    simp only [List.flatten_cons]
    rw [wavChunks_flat ((w :: ws).drop 32768)]
    exact List.take_append_drop 32768 (w :: ws)
termination_by wav => wav.length
decreasing_by simp [List.length_drop]; omega

theorem wavChunks_mem : ∀ (wav c : List Nat), c ∈ wavChunks wav → ∀ b ∈ c, b ∈ wav
  | [], c, hc => by simp [wavChunks, wavChunksF] at hc
  | w :: ws, c, hc => by
    rw [wavChunks_cons] at hc
    rcases List.mem_cons.mp hc with h | h
    · intro b hb; exact List.take_subset _ _ (h ▸ hb)
    · intro b hb
      exact List.drop_subset _ _ (wavChunks_mem ((w :: ws).drop 32768) c h b hb)
termination_by wav _ _ => wav.length
decreasing_by simp [List.length_drop]; omega

theorem deltaLoop_cases (sched : Nat → Bool) (ds : List String) : ∀ i acc,
    deltaLoop sched i acc ds = deltaLoop noCancel i acc ds ∨
      ((deltaLoop sched i acc ds).hit = true ∧
        ∃ t, (deltaLoop sched i acc ds).events ++ t = deltaEvents acc ds) := by
  induction ds with
  | nil => intro i acc; left; simp [deltaLoop]
  | cons d ds ih =>
    intro i acc
    by_cases hs : sched i = true
    · right
      simp only [deltaLoop, hs, if_true]
      exact ⟨trivial, deltaEvents acc (d :: ds), rfl⟩
    · simp only [deltaLoop, hs, if_false, noCancel, Bool.false_eq_true]
      rcases ih (i + 1) (acc ++ d) with h | ⟨hhit, t, ht⟩
      · left; rw [h]
      · right
        refine ⟨hhit, t, ?_⟩
        simp only [deltaEvents, accTexts, List.map_cons]
        simpa [deltaEvents] using ht

theorem chunkEmit_prefixes (cs : List (List Nat)) : ∀ (sched : Nat → Bool) (i : Nat),
    ∃ t, chunkEmit sched i cs ++ t = chunkEmit noCancel i cs := by
  induction cs with
  | nil => intro sched i; exact ⟨[], rfl⟩
  | cons c cs ih =>
    intro sched i
    by_cases hs : sched i = true
    · exact ⟨chunkEmit noCancel i (c :: cs), by rw [chunkEmit, if_pos hs]; simp⟩
    · obtain ⟨t, ht⟩ := ih sched (i + 1)
      refine ⟨t, ?_⟩
      rw [chunkEmit, if_neg hs]
      conv_rhs => rw [chunkEmit]
      simp only [noCancel, Bool.false_eq_true, if_false, List.cons_append, ht]

theorem chunkLoop_prefixes (wav : List Nat) (sched : Nat → Bool) (i : Nat) :
    ∃ t, chunkLoop sched i wav ++ t = chunkLoop noCancel i wav :=
  chunkEmit_prefixes (wavChunks wav) sched i

theorem accTexts_chain_from (ds : List String) : ∀ a, List.Chain' strPre (a :: accTexts a ds) := by
  induction ds with
  | nil => intro a; simp [accTexts]
  | cons d ds ih =>
    intro a
    rw [accTexts, List.chain'_cons]
    exact ⟨⟨d, rfl⟩, ih (a ++ d)⟩

theorem accTexts_chain (acc : String) (ds : List String) :
    List.Chain' strPre (accTexts acc ds) := by
  cases ds with
  | nil => simp [accTexts]
  | cons d ds => rw [accTexts]; exact accTexts_chain_from ds (acc ++ d)

theorem map_id_of_mem {α : Type} (l : List α) (f : α → α) (h : ∀ a ∈ l, f a = a) :
    l.map f = l := by
  induction l with
  | nil => rfl
  | cons x l ih => simp [h x (by simp), ih fun a ha => h a (by simp [ha])]

theorem filterMap_partial_rt : ∀ l : List String,
    (l.map fun x => Event.responseText x false).filterMap partialText = l := by
  intro l
  induction l with
  | nil => rfl
  | cons x l ih => simp [partialText, ih]

theorem filterMap_partial_chunks : ∀ l : List (List Nat),
    ((l.map fun c => Event.audioChunk (String.mk (b64EncodeGroups c))).filterMap
      partialText) = [] := by
  intro l
  induction l with
  | nil => rfl
  | cons x l ih => simp [partialText, ih]

theorem filterMap_chunk_map : ∀ l : List (List Nat),
    ((l.map fun c => Event.audioChunk (String.mk (b64EncodeGroups c))).filterMap
      chunkData) = l.map fun c => String.mk (b64EncodeGroups c) := by
  intro l
  induction l with
  | nil => rfl
  | cons x l ih => simp [chunkData, ih]

theorem filterMap_chunk_rt : ∀ l : List String,
    (l.map fun x => Event.responseText x false).filterMap chunkData = [] := by
  intro l
  induction l with
  | nil => rfl
  | cons x l ih => simp [chunkData, ih]

theorem filterMap_partial_comp_rt : ∀ l : List String,
    List.filterMap (partialText ∘ fun x => Event.responseText x false) l = l := by
  intro l
  induction l with
  | nil => rfl
  | cons x l ih => simp [partialText, ih]

theorem filterMap_partial_comp_chunks : ∀ l : List (List Nat),
    List.filterMap (partialText ∘ fun c => Event.audioChunk (String.mk (b64EncodeGroups c))) l
      = [] := by
  intro l
  induction l with
  | nil => rfl
  | cons x l ih => simp [partialText, ih]

theorem filterMap_chunk_comp_map : ∀ l : List (List Nat),
    List.filterMap (chunkData ∘ fun c => Event.audioChunk (String.mk (b64EncodeGroups c))) l
      = l.map fun c => String.mk (b64EncodeGroups c) := by
  intro l
  induction l with
  | nil => rfl
  | cons x l ih => simp [chunkData, ih]

theorem filterMap_chunk_comp_rt : ∀ l : List String,
    List.filterMap (chunkData ∘ fun x => Event.responseText x false) l = [] := by
  intro l
  induction l with
  | nil => rfl
  | cons x l ih => simp [chunkData, ih]

/-- A fully successful audio turn under the actual schedule: transcript,
thinking, one cumulative partial per delta, the final response text, one
`audio_chunk` per 32 KiB slice of the synthesized audio in order, then
`audio_end`. -/
theorem runTurn_spec (env : Env) (k : String) (v : Option String) (bytes : List Nat)
    (t fr : String) (ds : List String) (wav : List Nat)
    (hstt : env.stt bytes = .ok t) (ht : t ≠ "")
    (hj : ask_jarvis (env.gateway t k) 90 = (.ok fr, ds)) (hfr : fr ≠ "")
    (htts : env.tts fr v = .ok wav) :
    runTurn env k v bytes noCancel =
      Event.transcript t :: Event.thinking :: deltaEvents "" ds ++
        Event.responseText fr true ::
          (((wavChunks wav).map fun c => Event.audioChunk (String.mk (b64EncodeGroups c))) ++
            [Event.audioEnd]) := by
  simp only [runTurn, hstt]
  rw [if_neg ht]
  simp only [noCancel, Bool.false_eq_true, if_false, hj]
  simp only [turnTail, deltaLoop_noCancel, Bool.false_eq_true, if_false, noCancel]
  rw [if_neg hfr]
  simp only [htts, chunkLoop_noCancel, List.cons_append]

/-- The partial `response_text` events of a turn are exactly the
cumulative accumulations of the published deltas, whatever the gateway
result and the TTS outcome. -/
theorem runTurn_partials (env : Env) (k : String) (v : Option String) (bytes : List Nat)
    (t : String) (hstt : env.stt bytes = .ok t) (ht : t ≠ "") :
    (runTurn env k v bytes noCancel).filterMap partialText =
      accTexts "" (ask_jarvis (env.gateway t k) 90).2 := by
  simp only [runTurn, hstt]
  rw [if_neg ht]
  simp only [noCancel, Bool.false_eq_true, if_false]
  simp only [turnTail, deltaLoop_noCancel, Bool.false_eq_true, if_false, noCancel, deltaEvents]
  cases hres : (ask_jarvis (env.gateway t k) 90).1 with
  | error e =>
    simp [partialText, List.filterMap_append, filterMap_partial_comp_rt]
  | ok fr =>
    cases htts : env.tts (if fr = "" then accFinal "" (ask_jarvis (env.gateway t k) 90).2 else fr) v with
    | error e =>
      simp [htts, partialText, List.filterMap_append, filterMap_partial_comp_rt]
    | ok wav =>
      simp [htts, partialText, List.filterMap_append, filterMap_partial_comp_rt,
        chunkLoop_noCancel, filterMap_partial_comp_chunks]

/-- Accumulated deltas after the listening loop consumes a run of
non-terminal, pre-deadline frames; `none` when the loop would exit on one
of these frames.  Mirrors the `delta` branch of `listenLoop`. -/
def consumeParts (deadline : Nat) : List (Nat × GwRaw) → List String → Option (List String)
  | [], parts => some parts
  | (t, raw) :: rest, parts =>
    if deadline < t then none
    else
      match raw with
      | .chat st content =>
        if st = "delta" then consumeParts deadline rest (addDeltas parts content)
        else if st = "final" then none
        else if st = "aborted" ∨ st = "error" then none
        else consumeParts deadline rest parts
      | _ => consumeParts deadline rest parts

theorem listenLoop_consume (deadline : Nat) :
    ∀ (pre : List (Nat × GwRaw)) (parts parts' : List String),
      consumeParts deadline pre parts = some parts' →
      ∀ fs, listenLoop deadline (pre ++ fs) parts = listenLoop deadline fs parts' := by
  intro pre
  induction pre with
  | nil =>
    intro parts parts' h fs
    simp only [consumeParts, Option.some.injEq] at h
    rw [h]
    rfl
  | cons f rest ih =>
    intro parts parts' h fs
    obtain ⟨t, raw⟩ := f
    by_cases hd : deadline < t
    · simp only [consumeParts, if_pos hd] at h
      exact Option.noConfusion h
    · cases raw with
      | chat st content =>
        simp only [consumeParts, if_neg hd] at h
        rw [List.cons_append]
        simp only [listenLoop, if_neg hd]
        by_cases h1 : st = "delta"
        · rw [if_pos h1] at h
          rw [if_pos h1]
          exact ih _ _ h fs
        · rw [if_neg h1] at h
          rw [if_neg h1]
          by_cases h2 : st = "final"
          · rw [if_pos h2] at h
            exact Option.noConfusion h
          · rw [if_neg h2] at h
            rw [if_neg h2]
            by_cases h3 : st = "aborted" ∨ st = "error"
            · rw [if_pos h3] at h
              exact Option.noConfusion h
            · rw [if_neg h3] at h
              rw [if_neg h3]
              exact ih _ _ h fs
      | invalid =>
        simp only [consumeParts, if_neg hd] at h
        rw [List.cons_append]
        simp only [listenLoop, if_neg hd]
        exact ih _ _ h fs
      | proxyReady =>
        simp only [consumeParts, if_neg hd] at h
        rw [List.cons_append]
        simp only [listenLoop, if_neg hd]
        exact ih _ _ h fs
      | errFrame m =>
        simp only [consumeParts, if_neg hd] at h
        rw [List.cons_append]
        simp only [listenLoop, if_neg hd]
        exact ih _ _ h fs
      | otherFrame =>
        simp only [consumeParts, if_neg hd] at h
        rw [List.cons_append]
        simp only [listenLoop, if_neg hd]
        exact ih _ _ h fs

/-- Selector for final `response_text` events. -/
def finalText : Event → Option String
  | .responseText t true => some t
  | _ => none

/-- `a` is an initial segment of the event list `b`. -/
def evPre (a b : List Event) : Prop := ∃ rest, a ++ rest = b

theorem evPre_append (a b : List Event) : evPre a (a ++ b) := ⟨b, rfl⟩

theorem evPre_mono {a b : List Event} (h : evPre a b) (c : List Event) :
    evPre a (b ++ c) := by
  obtain ⟨t, ht⟩ := h
  exact ⟨t ++ c, by rw [← List.append_assoc, ht]⟩

theorem evPre_cons (x : Event) {a b : List Event} (h : evPre a b) :
    evPre (x :: a) (x :: b) := by
  obtain ⟨t, ht⟩ := h
  exact ⟨t, by rw [List.cons_append, ht]⟩

theorem evPre_append_left (c : List Event) {a b : List Event} (h : evPre a b) :
    evPre (c ++ a) (c ++ b) := by
  obtain ⟨t, ht⟩ := h
  exact ⟨t, by rw [List.append_assoc, ht]⟩

/-- Case analysis of the turn tail under an arbitrary read schedule: its
events are an initial segment of the uncancelled tail, except that an
interruption observed at a chunk checkpoint still appends the trailing
`audio_end` (source line 480 sits after the chunk loop but inside the
turn, so it runs whenever the loop is left by `break`). -/
theorem turnTail_cases (sched : Nat → Bool) (res : Except String String)
    (ds : List String) (tts : String → Except String (List Nat)) :
    ∃ p, evPre p (turnTail noCancel res ds tts) ∧
      (turnTail sched res ds tts = p ∨
        turnTail sched res ds tts = p ++ [Event.audioEnd]) := by
  have hN := deltaLoop_noCancel ds 1 ""
  rcases deltaLoop_cases sched ds 1 "" with heq | ⟨hhit, tl, htl⟩
  · simp only [turnTail, heq, hN, Bool.false_eq_true, if_false, noCancel]
    by_cases hn : sched (1 + ds.length) = true
    · rw [if_pos hn]
      exact ⟨deltaEvents "" ds, evPre_append _ _, Or.inl (List.append_nil _)⟩
    · rw [if_neg hn]
      cases res with
      | error e =>
        exact ⟨deltaEvents "" ds ++ [Event.error e], ⟨[], List.append_nil _⟩, Or.inl rfl⟩
      | ok fr =>
        by_cases h2 : sched (1 + ds.length + 1) = true
        · simp only [if_pos h2]
          refine ⟨deltaEvents "" ds ++ Event.responseText (if fr = "" then accFinal "" ds else fr) true :: [],
            ?_, Or.inl rfl⟩
          exact evPre_append_left _ ⟨_, rfl⟩
        · simp only [if_neg h2]
          cases htts : tts (if fr = "" then accFinal "" ds else fr) with
          | error e =>
            exact ⟨deltaEvents "" ds ++
              Event.responseText (if fr = "" then accFinal "" ds else fr) true :: [Event.error e],
              ⟨[], List.append_nil _⟩, Or.inl rfl⟩
          | ok wav =>
            obtain ⟨tl2, htl2⟩ := chunkEmit_prefixes (wavChunks wav) sched (1 + ds.length + 2)
            refine ⟨deltaEvents "" ds ++
              Event.responseText (if fr = "" then accFinal "" ds else fr) true ::
                chunkEmit sched (1 + ds.length + 2) (wavChunks wav), ?_, Or.inr ?_⟩
            · refine evPre_append_left _ (evPre_cons _ ?_)
              exact ⟨tl2 ++ [Event.audioEnd], by
                unfold chunkLoop
                rw [← List.append_assoc, htl2]⟩
            · unfold chunkLoop
              simp only [List.append_assoc, List.cons_append]
  · refine ⟨(deltaLoop sched 1 "" ds).events, ?_, Or.inl ?_⟩
    · simp only [turnTail, hN, Bool.false_eq_true, if_false, noCancel]
      exact evPre_mono ⟨tl, htl⟩ _
    · simp only [turnTail, hhit, if_true]
      exact List.append_nil _

/-! ### Concrete data for witnesses and counterexamples -/

/-- 501 bytes of audio payload, above the 500-byte minimum. -/
def audioBytesOk : List Nat := List.replicate 501 65

/-- The payload `audioBytesOk` base64-encoded, as a client would send it. -/
def audioOkB64 : String := String.mk (b64EncodeGroups audioBytesOk)

/-- Witness environment: STT recognizes "hi"; the gateway hands over
readiness, deltas "Hel" and "lo", then a final "Hello"; TTS synthesizes
three bytes. -/
def envA : Env :=
  { stt := fun _ => .ok "hi"
    gateway := fun _ _ =>
      [(0, .proxyReady), (1, .chat "delta" [.text "Hel"]),
       (2, .chat "delta" [.text "lo"]), (3, .chat "final" [.text "Hello"])]
    tts := fun _ _ => .ok [0, 1, 2] }

/-- Environment whose STT detects no speech. -/
def envSilent : Env :=
  { stt := fun _ => .ok ""
    gateway := fun _ _ => []
    tts := fun _ _ => .ok [] }

/-- A session state with a turn marked in flight. -/
def busyState : SessionState :=
  { sessionKey := DEFAULT_SESSION_KEY, voiceName := none, processing := true, cancelled := false }

/-- A session state with a voice already selected. -/
def voicedState : SessionState :=
  { sessionKey := DEFAULT_SESSION_KEY, voiceName := some "x", processing := false,
    cancelled := false }

/-- Gateway stream for the C4 witness: readiness, one early delta, then a
frame that arrives past the deadline. -/
def gwLate : List (Nat × GwRaw) :=
  [(0, .proxyReady), (5, .chat "delta" [.text "Hi"]), (100, .otherFrame)]

/-! ### Claims -/

/-- C1: an `audio` message dispatched while `processing` is true is answered
with exactly one error event ("Already processing — please wait") and has no
other effect: the state is returned unchanged (same `processing`,
`cancelled`, `sessionKey`, `selectedVoice`), and since the equation holds
for every environment, no pipeline stage runs and the inbound audio is
dropped.  Turns are strictly sequential in the dispatch loop, so at most
one turn is in flight per session. -/
theorem claim_C1_busy_reject (env : Env) (s : SessionState) (a m vm d : Option String)
    (h : s.processing = true) :
    step env s (.json (.obj "audio" a m vm d)) =
      .next s [Event.error "Already processing — please wait"] := by
  simp only [step]
  rw [if_neg (by decide : ¬("audio" : String) = "ping"),
      if_neg (by decide : ¬("audio" : String) = "config"),
      if_neg (by decide : ¬("audio" : String) = "cancel"),
      if_pos trivial, if_pos h]

theorem claim_C1_witness :
    busyState.processing = true ∧
    step envA busyState (.json (.obj "audio" none none none (some "QUFB"))) =
      .next busyState [Event.error "Already processing — please wait"] :=
  ⟨rfl, claim_C1_busy_reject envA busyState none none none (some "QUFB") rfl⟩

set_option maxRecDepth 100000 in
/-- C2 (evaluation at the failing input): the handler coroutine never
returns to `ws.receive()` while a turn is in flight, so a `cancel` frame
sent mid-turn is dispatched only after the turn has completed.  Starting
from a fresh session, an accepted audio turn followed by the queued
`cancel` produces the turn's full event sequence — all partials, the final
response, the audio chunk and `audio_end` — and only then the cancellation
acknowledgement; no checkpoint ever observes `cancelled = true`. -/
theorem claim_C2_cancel_only_after_turn :
    runFrames envA initState
        [.json (.obj "audio" none none none (some audioOkB64)),
         .json (.obj "cancel" none none none none)] =
      (some { sessionKey := "agent:cso:mc-voice", voiceName := none,
              processing := false, cancelled := true },
        [Event.transcript "hi", Event.thinking, Event.responseText "Hel" false,
         Event.responseText "Hello" false, Event.responseText "Hello" true,
         Event.audioChunk (String.mk (b64EncodeGroups [0, 1, 2])), Event.audioEnd,
         Event.cancelledAck]) := by
  decide

/-- C3 (amended): under any schedule of mid-turn `cancelled` readings, the
turn's events are an initial segment of the uncancelled turn's events,
except that cancellation observed at a chunk checkpoint still appends the
trailing `audio_end` (it sits outside the chunk loop).  In particular no
chunk events follow the cancellation point.  The flag is cleared at the
start of the next turn (`cancelled := false` in the accepted-audio branch
of `step`). -/
theorem claim_C3_events_truncated (env : Env) (k : String) (v : Option String)
    (bytes : List Nat) (sched : Nat → Bool) :
    ∃ p, evPre p (runTurn env k v bytes noCancel) ∧
      (runTurn env k v bytes sched = p ∨
        runTurn env k v bytes sched = p ++ [Event.audioEnd]) := by
  cases hstt : env.stt bytes with
  | error e =>
    exact ⟨[Event.error e], ⟨[], by simp [runTurn, hstt]⟩, Or.inl (by simp [runTurn, hstt])⟩
  | ok t =>
    by_cases ht : t = ""
    · exact ⟨[Event.error "No speech detected"], ⟨[], by simp [runTurn, hstt, ht]⟩,
        Or.inl (by simp [runTurn, hstt, ht])⟩
    · by_cases h0 : sched 0 = true
      · refine ⟨[Event.transcript t], ?_, Or.inl ?_⟩
        · simp only [runTurn, hstt, if_neg ht, noCancel, Bool.false_eq_true, if_false]
          exact ⟨_, rfl⟩
        · simp only [runTurn, hstt, if_neg ht, if_pos h0]
      · obtain ⟨p, hpre, hor⟩ := turnTail_cases sched
          (ask_jarvis (env.gateway t k) 90).1 (ask_jarvis (env.gateway t k) 90).2
          (fun x => env.tts x v)
        refine ⟨Event.transcript t :: Event.thinking :: p, ?_, ?_⟩
        · simp only [runTurn, hstt, if_neg ht, noCancel, Bool.false_eq_true, if_false]
          exact evPre_cons _ (evPre_cons _ hpre)
        · simp only [runTurn, hstt, if_neg ht, if_neg h0]
          rcases hor with h | h
          · exact Or.inl (by rw [h])
          · exact Or.inr (by rw [h]; simp [List.cons_append])

/-- C3 counterexample to the claim as stated: with the schedule that turns
true from the fifth read on — i.e. cancellation first observed at the
checkpoint guarding the first audio chunk (read index 5 = `r.next + 2`
for two deltas) — the turn emits no `audio_chunk`, yet still emits
`audio_end` after the cancellation was observed, an outbound event other
than the acknowledgement.  `wavChunks [0,1,2] ≠ []` shows a chunk was
pending. -/
theorem claim_C3_counterexample :
    runTurn envA "k" none [1] (fun i => decide (5 ≤ i)) =
      [Event.transcript "hi", Event.thinking, Event.responseText "Hel" false,
        Event.responseText "Hello" false, Event.responseText "Hello" true, Event.audioEnd] ∧
    (fun i => decide (5 ≤ i)) 5 = true ∧ wavChunks [0, 1, 2] ≠ [] := by
  decide

/-- C4 (amended): when the deadline elapses before any terminal frame —
the listening loop having consumed only non-terminal pre-deadline frames,
accumulating `parts'` — the exchange stops reading and returns without
error; but the value returned is `"".join(parts)` only when that string is
non-empty, and otherwise the fixed fallback text, never the empty
string. -/
theorem claim_C4_deadline_returns_accumulated (frames rest pre more : List (Nat × GwRaw))
    (t : Nat) (raw : GwRaw) (parts' : List String) (timeout : Nat)
    (hready : awaitReady frames = .ok rest)
    (hsplit : rest = pre ++ (t, raw) :: more)
    (hpre : consumeParts timeout pre [] = some parts')
    (hlate : timeout < t) :
    ask_jarvis frames timeout = (.ok (pyOr (String.join parts') apology), parts') := by
  simp only [ask_jarvis, hready, hsplit]
  rw [listenLoop_consume timeout pre [] parts' hpre ((t, raw) :: more)]
  cases raw <;> rw [listenLoop, if_pos hlate] <;> simp [pyOr]

theorem claim_C4_witness :
    (awaitReady gwLate = .ok [(5, GwRaw.chat "delta" [Block.text "Hi"]), (100, GwRaw.otherFrame)] ∧
      consumeParts 90 [(5, GwRaw.chat "delta" [Block.text "Hi"])] [] = some ["Hi"] ∧
      90 < 100) ∧
    ask_jarvis gwLate 90 = (.ok (pyOr (String.join ["Hi"]) apology), ["Hi"]) :=
  ⟨⟨by decide, by decide, by decide⟩,
    claim_C4_deadline_returns_accumulated gwLate
      [(5, GwRaw.chat "delta" [Block.text "Hi"]), (100, GwRaw.otherFrame)]
      [(5, GwRaw.chat "delta" [Block.text "Hi"])] [] 100 GwRaw.otherFrame ["Hi"] 90
      (by decide) rfl (by decide) (by decide)⟩

/-- C4 counterexample to the claim as stated: the exchange times out with
no accumulated deltas, and returns the fallback apology text rather than
the empty string. -/
theorem claim_C4_counterexample :
    ask_jarvis [(0, .proxyReady), (100, .chat "delta" [.text "late"])] 90 =
      (.ok apology, []) ∧ apology ≠ "" := by
  decide

/-- C5: every partial (non-final) `response_text` of a turn carries the
cumulative accumulated text: in order, the partial texts are exactly the
successive accumulations of the published deltas, and consecutive partial
texts extend one another (each is an initial segment of the next). -/
theorem claim_C5_partials_cumulative (env : Env) (k : String) (v : Option String)
    (bytes : List Nat) (t : String)
    (hstt : env.stt bytes = .ok t) (ht : t ≠ "") :
    (runTurn env k v bytes noCancel).filterMap partialText =
      accTexts "" (ask_jarvis (env.gateway t k) 90).2 ∧
    List.Chain' strPre ((runTurn env k v bytes noCancel).filterMap partialText) :=
  ⟨runTurn_partials env k v bytes t hstt ht,
   by rw [runTurn_partials env k v bytes t hstt ht]; exact accTexts_chain "" _⟩

theorem claim_C5_witness :
    (envA.stt [1] = .ok "hi" ∧ ("hi" : String) ≠ "") ∧
    ((runTurn envA "k" none [1] noCancel).filterMap partialText =
        accTexts "" (ask_jarvis (envA.gateway "hi" "k") 90).2 ∧
      List.Chain' strPre ((runTurn envA "k" none [1] noCancel).filterMap partialText)) ∧
    (runTurn envA "k" none [1] noCancel).filterMap partialText = ["Hel", "Hello"] ∧
    (runTurn envA "k" none [1] noCancel).filterMap finalText = ["Hello"] :=
  ⟨⟨by decide, by decide⟩,
    claim_C5_partials_cumulative envA "k" none [1] "hi" (by decide) (by decide),
    by decide, by decide⟩

/-- C6: a turn that reaches audio delivery uncancelled splits the TTS
output into consecutive 32768-byte slices, emits one `audio_chunk` per
slice in order followed by one `audio_end`, and concatenating the
base64-decoded payloads of all `audio_chunk` events reproduces the TTS
output byte-for-byte. -/
theorem claim_C6_chunk_roundtrip (env : Env) (k : String) (v : Option String)
    (bytes : List Nat) (t fr : String) (ds : List String) (wav : List Nat)
    (hstt : env.stt bytes = .ok t) (ht : t ≠ "")
    (hj : ask_jarvis (env.gateway t k) 90 = (.ok fr, ds)) (hfr : fr ≠ "")
    (htts : env.tts fr v = .ok wav) (hwav : ∀ b ∈ wav, b < 256) :
    runTurn env k v bytes noCancel =
      Event.transcript t :: Event.thinking :: deltaEvents "" ds ++
        Event.responseText fr true ::
          (((wavChunks wav).map fun c => Event.audioChunk (String.mk (b64EncodeGroups c))) ++
            [Event.audioEnd]) ∧
    (((runTurn env k v bytes noCancel).filterMap chunkData).map
        fun str => b64DecodeGroups str.data).flatten = wav := by
  have hs := runTurn_spec env k v bytes t fr ds wav hstt ht hj hfr htts
  refine ⟨hs, ?_⟩
  rw [hs]
  have hdec : ∀ c ∈ wavChunks wav, b64DecodeGroups (String.mk (b64EncodeGroups c)).data = c :=
    fun c hc => b64_roundtrip c fun b hb => hwav b (wavChunks_mem wav c hc b hb)
  simp only [chunkData, List.filterMap_cons, List.cons_append, List.filterMap_append,
    deltaEvents, List.filterMap_map, filterMap_chunk_comp_rt, filterMap_chunk_comp_map,
    List.filterMap_nil, List.nil_append, List.append_nil]
  rw [List.map_map, map_id_of_mem (wavChunks wav)
    ((fun str : String => b64DecodeGroups str.data) ∘ fun c => String.mk (b64EncodeGroups c)) hdec]
  exact wavChunks_flat wav

theorem claim_C6_witness :
    (envA.stt [1] = .ok "hi" ∧ ("hi" : String) ≠ "" ∧
      ask_jarvis (envA.gateway "hi" "k") 90 = (.ok "Hello", ["Hel", "lo"]) ∧
      ("Hello" : String) ≠ "" ∧ envA.tts "Hello" none = .ok [0, 1, 2] ∧
      ∀ b ∈ [0, 1, 2], b < 256) ∧
    (runTurn envA "k" none [1] noCancel =
        Event.transcript "hi" :: Event.thinking :: deltaEvents "" ["Hel", "lo"] ++
          Event.responseText "Hello" true ::
            (((wavChunks [0, 1, 2]).map fun c =>
                Event.audioChunk (String.mk (b64EncodeGroups c))) ++
              [Event.audioEnd]) ∧
      (((runTurn envA "k" none [1] noCancel).filterMap chunkData).map
          fun str => b64DecodeGroups str.data).flatten = [0, 1, 2]) :=
  ⟨⟨by decide, by decide, by decide, by decide, by decide, by decide⟩,
    claim_C6_chunk_roundtrip envA "k" none [1] "hi" "Hello" ["Hel", "lo"] [0, 1, 2]
      (by decide) (by decide) (by decide) (by decide) (by decide) (by decide)⟩

/-- Reduction of the accepted-audio branch: a well-formed audio payload of
at least 500 bytes sent while idle runs one turn inline and returns with
`processing = false` and `cancelled = false`. -/
theorem step_audio_accept (env : Env) (s : SessionState) (bs : List Nat)
    (hproc : s.processing = false) (hbytes : ∀ b ∈ bs, b < 256) (hlen : 500 ≤ bs.length) :
    step env s (.json (.obj "audio" none none none (some (String.mk (b64EncodeGroups bs))))) =
      .next { s with processing := false, cancelled := false }
        (runTurn env s.sessionKey s.voiceName bs noCancel) := by
  have hne : String.mk (b64EncodeGroups bs) ≠ "" := by
    intro he
    have hd : b64EncodeGroups bs = [] := congrArg String.data he
    cases bs with
    | nil => simp at hlen
    | cons a l =>
      cases l with
      | nil => simp [b64EncodeGroups] at hd
      | cons b l2 =>
        cases l2 with
        | nil => simp [b64EncodeGroups] at hd
        | cons c l3 => simp [b64EncodeGroups] at hd
  have hdec : b64DecodeGroups (String.mk (b64EncodeGroups bs)).data = bs :=
    b64_roundtrip bs hbytes
  simp only [step]
  rw [if_neg (by decide : ¬("audio" : String) = "ping"),
      if_neg (by decide : ¬("audio" : String) = "config"),
      if_neg (by decide : ¬("audio" : String) = "cancel"),
      if_pos trivial]
  rw [hproc]
  simp only [Bool.false_eq_true, if_false, Option.getD_some]
  rw [if_neg hne]
  rw [hdec]
  rw [if_neg (by omega : ¬bs.length < 500)]

/-- C7: if STT returns the empty string for an accepted audio message, the
turn emits exactly one `error` event ("No speech detected") — no
`transcript`, `response_text`, `audio_chunk` or `audio_end` — and ends
with `processing = false`. -/
theorem claim_C7_no_speech (env : Env) (s : SessionState) (bs : List Nat)
    (hproc : s.processing = false) (hbytes : ∀ b ∈ bs, b < 256) (hlen : 500 ≤ bs.length)
    (hstt : env.stt bs = .ok "") :
    step env s (.json (.obj "audio" none none none (some (String.mk (b64EncodeGroups bs))))) =
      .next { s with processing := false, cancelled := false }
        [Event.error "No speech detected"] := by
  rw [step_audio_accept env s bs hproc hbytes hlen]
  simp only [runTurn, hstt]
  rfl

set_option maxRecDepth 100000 in
theorem claim_C7_witness :
    (initState.processing = false ∧ (∀ b ∈ audioBytesOk, b < 256) ∧
      500 ≤ audioBytesOk.length ∧ envSilent.stt audioBytesOk = .ok "") ∧
    step envSilent initState
        (.json (.obj "audio" none none none (some (String.mk (b64EncodeGroups audioBytesOk))))) =
      .next { initState with processing := false, cancelled := false }
        [Event.error "No speech detected"] :=
  ⟨⟨rfl, by decide, by decide, rfl⟩,
    claim_C7_no_speech envSilent initState audioBytesOk rfl (by decide) (by decide) rfl⟩

/-- C8: every accepted audio turn — whatever the adapters do: success, an
exception in any stage, or an aborted exchange — ends with
`processing = false` (and `cancelled = false`), so the next audio message
is not rejected as already-processing. -/
theorem claim_C8_processing_cleared (env : Env) (s : SessionState) (bs : List Nat)
    (hproc : s.processing = false) (hbytes : ∀ b ∈ bs, b < 256) (hlen : 500 ≤ bs.length) :
    ∃ s' evs,
      step env s (.json (.obj "audio" none none none (some (String.mk (b64EncodeGroups bs))))) =
        .next s' evs ∧ s'.processing = false ∧ s'.cancelled = false :=
  ⟨{ s with processing := false, cancelled := false },
    runTurn env s.sessionKey s.voiceName bs noCancel,
    step_audio_accept env s bs hproc hbytes hlen, rfl, rfl⟩

set_option maxRecDepth 100000 in
theorem claim_C8_witness :
    (initState.processing = false ∧ (∀ b ∈ audioBytesOk, b < 256) ∧
      500 ≤ audioBytesOk.length) ∧
    (∃ s' evs,
      step envA initState
          (.json (.obj "audio" none none none (some (String.mk (b64EncodeGroups audioBytesOk))))) =
        .next s' evs ∧ s'.processing = false ∧ s'.cancelled = false) :=
  ⟨⟨rfl, by decide, by decide⟩,
    claim_C8_processing_cleared envA initState audioBytesOk rfl (by decide) (by decide)⟩

/-- C9 (amended): a `config` message recomputes the session key as
`"agent:<agentId>:mc-voice"`, sets the selected voice when `voiceModel` is
present and non-empty (a present-but-empty `voiceModel` is falsy in the
source's `if voice_model:` and leaves the voice unchanged), and replies
with one `config_ok` echoing the resolved agent id, STT model and session
key; processing the same message again leaves the state fixed and returns
the same event (idempotence). -/
theorem claim_C9_config_idempotent (env : Env) (s : SessionState)
    (agentId sttModel voiceModel : Option String) :
    ∃ s' ev,
      step env s (.json (.obj "config" agentId sttModel voiceModel none)) = .next s' [ev] ∧
      step env s' (.json (.obj "config" agentId sttModel voiceModel none)) = .next s' [ev] ∧
      s'.sessionKey = "agent:" ++ agentId.getD "cso" ++ ":mc-voice" ∧
      ev = Event.configOk (agentId.getD "cso") (sttModel.getD WHISPER_MODEL_SIZE)
        s'.sessionKey ∧
      s'.voiceName = (match voiceModel with
        | some v => if v = "" then s.voiceName else some v
        | none => s.voiceName) ∧
      s'.processing = s.processing ∧ s'.cancelled = s.cancelled := by
  refine ⟨{ s with
      sessionKey := "agent:" ++ agentId.getD "cso" ++ ":mc-voice"
      voiceName := match voiceModel with
        | some v => if v = "" then s.voiceName else some v
        | none => s.voiceName },
    Event.configOk (agentId.getD "cso") (sttModel.getD WHISPER_MODEL_SIZE)
      ("agent:" ++ agentId.getD "cso" ++ ":mc-voice"), ?_, ?_, rfl, rfl, rfl, rfl, rfl⟩
  · simp only [step]
    rw [if_neg (by decide : ¬("config" : String) = "ping"),
        if_pos trivial]
  · simp only [step]
    rw [if_neg (by decide : ¬("config" : String) = "ping"),
        if_pos trivial]
    cases voiceModel with
    | none => rfl
    | some v =>
      by_cases hv : v = ""
      · simp only [hv, eq_self_iff_true, if_true]
      · simp only [if_neg hv]

/-- C9 counterexample to the claim as stated: `voiceModel` present but
empty does not set the selected voice — the state (with voice "x") is
returned unchanged, not updated to the present value `""`. -/
theorem claim_C9_counterexample :
    step envA voicedState (.json (.obj "config" (some "cso") (some "base") (some "") none)) =
      .next voicedState [Event.configOk "cso" "base" "agent:cso:mc-voice"] ∧
    voicedState.voiceName ≠ some "" := by
  decide

/-- C10 (amended): a frame with no text payload, a text payload that is
not valid JSON, or a JSON object whose `type` is none of
ping/config/cancel/audio, is ignored silently: no outbound event, state
unchanged, session continues.  (A valid-JSON non-object payload instead
ends the session; see the counterexample.) -/
theorem claim_C10_unknown_ignored (env : Env) (s : SessionState) (tag : String)
    (a m vm d : Option String)
    (h1 : tag ≠ "ping") (h2 : tag ≠ "config") (h3 : tag ≠ "cancel") (h4 : tag ≠ "audio") :
    step env s .emptyText = .next s [] ∧
    step env s .badJson = .next s [] ∧
    step env s (.json (.obj tag a m vm d)) = .next s [] := by
  refine ⟨rfl, rfl, ?_⟩
  simp only [step]
  rw [if_neg h1, if_neg h2, if_neg h3, if_neg h4]

theorem claim_C10_witness :
    (("bogus" : String) ≠ "ping" ∧ ("bogus" : String) ≠ "config" ∧
      ("bogus" : String) ≠ "cancel" ∧ ("bogus" : String) ≠ "audio") ∧
    (step envA initState .emptyText = .next initState [] ∧
      step envA initState .badJson = .next initState [] ∧
      step envA initState (.json (.obj "bogus" none none none none)) = .next initState []) :=
  ⟨⟨by decide, by decide, by decide, by decide⟩,
    claim_C10_unknown_ignored envA initState "bogus" none none none none
      (by decide) (by decide) (by decide) (by decide)⟩

/-- C10 counterexample to the claim as stated: a frame whose text is valid
JSON but not an object (for instance `5`) carries no `type` tag among
ping/config/cancel/audio, yet it is not silently ignored: `msg.get` raises
`AttributeError`, which escapes to the outer handler and ends the session
loop. -/
theorem claim_C10_counterexample :
    step envA initState (.json .nonObject) = .halt [] ∧
    StepResult.halt [] ≠ .next initState [] := by
  decide

end VoiceSidecar
